import Mathlib

/-
Verification of the tournament/match orchestration engine of the
L-25-TheAgentsGame repository, as a shallow embedding in Lean 4.

Python dictionaries are embedded as association lists with
insertion-ordered keys: assignment to an existing key overwrites in
place, assignment to a fresh key appends at the end, and iteration
follows list order (CPython guarantees insertion order).
-/

namespace AgentsGame

/-- Python dict lookup `d.get(k)`: value of the first (unique) entry with key `k`. -/
def dictGet? {κ α : Type} [BEq κ] (d : List (κ × α)) (k : κ) : Option α :=
  (d.find? (fun p => p.1 == k)).map (fun p => p.2)

/-- Python dict assignment `d[k] = v`: overwrite the entry in place when the key
is present, otherwise append a new entry at the end. -/
def dictSet {κ α : Type} [BEq κ] (d : List (κ × α)) (k : κ) (v : α) : List (κ × α) :=
  if d.any (fun p => p.1 == k) then
    d.map (fun p => if p.1 == k then (k, v) else p)
  else
    d ++ [(k, v)]

/-- Python `k in d` membership test on a dict. -/
def dictHas {κ α : Type} [BEq κ] (d : List (κ × α)) (k : κ) : Bool :=
  d.any (fun p => p.1 == k)

/-- Python in-place mutation of the object stored at key `k`
(`d[k].field += 1` and similar): rewrite that entry through `f`, leaving
every other entry untouched.  Mutating the same key twice composes, which
reproduces CPython aliasing when two variables name the same object. -/
def dictModify {κ α : Type} [BEq κ] (d : List (κ × α)) (k : κ) (f : α → α) :
    List (κ × α) :=
  d.map (fun p => if p.1 == k then (p.1, f p.2) else p)

/- ========================================================================
   src/agents/league_manager/src/league_manager/scheduler/round_robin.py
   ======================================================================== -/

/-- Python `itertools.combinations(player_ids, 2)`: all unordered pairs in
lexicographic index order. -/
def combinations2 : List String → List (String × String)
  | [] => []
  | x :: xs => xs.map (fun y => (x, y)) ++ combinations2 xs

/-- Set of players already appearing in a round (round_robin.py lines 48-51). -/
def playersInRound (r : List (String × String)) : List String :=
  r.foldl (fun acc m => acc ++ [m.1, m.2]) []

/-- Inner loop of `create_round_robin_schedule` (lines 45-56): scan the rounds
in order and append the match to the first round where both players are free;
when no round accommodates it, the match is dropped (the `for` loop simply
ends without an `else`). -/
def placeMatch (rounds : List (List (String × String))) (m : String × String) :
    List (List (String × String)) :=
  match rounds with
  | [] => []
  | r :: rest =>
    if m.1 ∈ playersInRound r ∨ m.2 ∈ playersInRound r then
      r :: placeMatch rest m
    else
      (r ++ [m]) :: rest

/-- Embedding of `create_round_robin_schedule` (round_robin.py lines 11-58). -/
def create_round_robin_schedule (player_ids : List String) :
    List (List (String × String)) :=
  let n := player_ids.length
  if n < 2 then []
  else
    let all_matches := combinations2 player_ids
    let num_rounds := if n % 2 == 0 then n - 1 else n
    let rounds : List (List (String × String)) := List.replicate num_rounds []
    all_matches.foldl placeMatch rounds

/-- Total number of matches in a schedule. -/
def totalMatches (schedule : List (List (String × String))) : Nat :=
  schedule.foldl (fun acc r => acc + r.length) 0

/- ========================================================================
   src/agents/referee_agent/src/referee/game_logic/scorer.py
   ======================================================================== -/

/-- Result dictionary returned by `determine_winner` (scorer.py lines 52-59).
The `status` field is the constant string "WIN" and is omitted. -/
structure GameResult where
  winner_player_id : Option String
  drawn_number : Nat
  number_parity : String
  choices : List (String × String)
  scores : List (String × Nat)
  deriving DecidableEq, Repr

/-- Embedding of `determine_winner` (scorer.py lines 11-59).  `choices` is the
insertion-ordered dict of player choices; the winner scan (lines 41-45) takes
the first key whose choice equals the parity and `None` when no choice does. -/
def determine_winner (drawn_number : Nat) (choices : List (String × String)) :
    GameResult :=
  let number_parity := if drawn_number % 2 == 0 then "even" else "odd"
  let winner_id : Option String :=
    (choices.find? (fun p => p.2 == number_parity)).map (fun p => p.1)
  let scores : List (String × Nat) :=
    choices.map (fun p =>
      (p.1, match winner_id with
            | some w => if p.1 == w then 3 else 0
            | none => 0))
  { winner_player_id := winner_id
    drawn_number := drawn_number
    number_parity := number_parity
    choices := choices
    scores := scores }

/-- Score assigned to one player in a result (lookup in the `scores` dict). -/
def scoreOf (r : GameResult) (pid : String) : Nat :=
  (dictGet? r.scores pid).getD 0

/-- Sum of all scores in a result. -/
def sumScores (r : GameResult) : Nat :=
  r.scores.foldl (fun acc p => acc + p.2) 0

/- ========================================================================
   src/agents/referee_agent/src/referee/game_logic/state_machine.py
   ======================================================================== -/

/-- Game states (state_machine.py lines 14-31). -/
inductive GameState where
  | WAITING_FOR_PLAYERS
  | COLLECTING_CHOICES
  | DRAWING_NUMBER
  | EVALUATING
  | FINISHED
  | ABORTED
  deriving DecidableEq, Repr

/-- Valid transition table `GameStateMachine.TRANSITIONS`
(state_machine.py lines 54-67). -/
def TRANSITIONS : GameState → List GameState
  | .WAITING_FOR_PLAYERS => [.COLLECTING_CHOICES, .ABORTED]
  | .COLLECTING_CHOICES => [.DRAWING_NUMBER, .ABORTED]
  | .DRAWING_NUMBER => [.EVALUATING]
  | .EVALUATING => [.FINISHED]
  | .FINISHED => []
  | .ABORTED => []

/-- State of a `GameStateMachine` object; timestamps are abstracted to `Nat`
ticks supplied by the caller (the code reads `datetime.now()`). -/
structure GameStateMachine where
  match_id : String
  state : GameState
  history : List (GameState × Nat)
  deriving DecidableEq, Repr

/-- Embedding of `GameStateMachine.__init__` (state_machine.py lines 69-80). -/
def GameStateMachine.mk0 (match_id : String) (now : Nat) : GameStateMachine :=
  { match_id := match_id
    state := .WAITING_FOR_PLAYERS
    history := [(.WAITING_FOR_PLAYERS, now)] }

/-- Embedding of `GameStateMachine.transition` (state_machine.py lines 82-105).
The first component is the raised `ValueError` message (`none` on success); the
second is the object state after the call — unchanged when the transition is
rejected, since the code raises before any mutation. -/
def GameStateMachine.transition (m : GameStateMachine) (new_state : GameState)
    (now : Nat) : Option String × GameStateMachine :=
  if new_state ∈ TRANSITIONS m.state then
    (none, { m with state := new_state, history := m.history ++ [(new_state, now)] })
  else
    (some "Invalid transition", m)

/-- Embedding of `GameStateMachine.can_transition` (lines 107-117). -/
def GameStateMachine.can_transition (m : GameStateMachine) (new_state : GameState) :
    Bool :=
  new_state ∈ TRANSITIONS m.state

/-- Modelled from the spec (claim C5 wording): the fixed edge set
"WAITING_FOR_PLAYERS → COLLECTING_CHOICES → DRAWING_NUMBER → EVALUATING →
FINISHED, with ABORTED reachable only from WAITING_FOR_PLAYERS and
COLLECTING_CHOICES, FINISHED and ABORTED terminal".  Stated independently of
the code's `TRANSITIONS` table for comparison. -/
def claimEdge (s t : GameState) : Bool :=
  (s == .WAITING_FOR_PLAYERS && t == .COLLECTING_CHOICES) ||
  (s == .COLLECTING_CHOICES && t == .DRAWING_NUMBER) ||
  (s == .DRAWING_NUMBER && t == .EVALUATING) ||
  (s == .EVALUATING && t == .FINISHED) ||
  ((s == .WAITING_FOR_PLAYERS || s == .COLLECTING_CHOICES) && t == .ABORTED)

/- ========================================================================
   src/agents/league_manager/src/league_manager/handlers/round_manager.py
   ======================================================================== -/

/-- Round state enumeration (round_manager.py lines 17-21). -/
inductive RoundStatus where
  | PENDING
  | IN_PROGRESS
  | COMPLETED
  deriving DecidableEq, Repr

/-- Mutable state of a `RoundManager` relevant to round/tournament tracking
(round_manager.py lines 38-42).  The dicts are keyed by round number; matches
are represented by their match ids (the only field the tracked operations
read).  The broadcaster, message builder and logger perform no mutation of
this state and are omitted. -/
structure RoundManager where
  current_round : Option Nat
  round_status : List (Nat × RoundStatus)
  round_matches : List (Nat × List String)
  completed_matches : List (Nat × List String)
  total_rounds : Nat
  deriving DecidableEq, Repr

/-- Fresh `RoundManager.__init__` state (round_manager.py lines 27-42). -/
def RoundManager.init0 : RoundManager :=
  { current_round := none
    round_status := []
    round_matches := []
    completed_matches := []
    total_rounds := 0 }

/-- Embedding of `RoundManager.initialize_tournament` (lines 44-56): rounds are
numbered from 1 and each is registered PENDING with an empty completion set.
Pre-existing dict entries not overwritten by the loop are retained, as in
Python. -/
def RoundManager.initTournament (m : RoundManager)
    (tournament_schedule : List (List String)) : RoundManager :=
  let m := { m with total_rounds := tournament_schedule.length, current_round := none }
  (List.range tournament_schedule.length).foldl
    (fun acc idx =>
      let round_number := idx + 1
      let ms := tournament_schedule.getD idx []
      { acc with
        round_matches := dictSet acc.round_matches round_number ms
        round_status := dictSet acc.round_status round_number .PENDING
        completed_matches := dictSet acc.completed_matches round_number [] })
    m

/-- Embedding of `RoundManager.start_round` (lines 58-78): raises (returns
`none`) unless the round exists and is PENDING; otherwise records it as the
current round and marks it IN_PROGRESS.  The announcement broadcast does not
touch the tracked state. -/
def RoundManager.start_round (m : RoundManager) (round_number : Nat) :
    Option RoundManager :=
  if ¬ (m.round_matches.any (fun p => p.1 == round_number)) then none
  else if dictGet? m.round_status round_number ≠ some .PENDING then none
  else
    some { m with
      current_round := some round_number
      round_status := dictSet m.round_status round_number .IN_PROGRESS }

/-- Embedding of `RoundManager.mark_match_complete` (lines 103-116): unknown
round numbers return `false` without mutation; otherwise the match id is added
to the round's completion set and the returned flag says whether the round is
now fully complete. -/
def RoundManager.mark_match_complete (m : RoundManager) (match_id : String)
    (round_number : Nat) : RoundManager × Bool :=
  match dictGet? m.completed_matches round_number with
  | none => (m, false)
  | some done =>
    let done := if match_id ∈ done then done else done ++ [match_id]
    let m := { m with
      completed_matches := dictSet m.completed_matches round_number done }
    let total := ((dictGet? m.round_matches round_number).getD []).length
    (m, done.length == total)

/-- Embedding of the state effect of `RoundManager.complete_round`
(lines 118-138): the round's status is set to COMPLETED unconditionally — the
method has no precondition check, and the status write happens before any
other statement (so it persists even when a later lookup raises).  The
completion broadcast does not touch the tracked state. -/
def RoundManager.complete_round (m : RoundManager) (round_number : Nat) :
    RoundManager :=
  { m with round_status := dictSet m.round_status round_number .COMPLETED }

/-- Embedding of `RoundManager.is_tournament_complete` (lines 144-146):
`all(s == RoundStatus.COMPLETED for s in self.round_status.values())`. -/
def RoundManager.is_tournament_complete (m : RoundManager) : Bool :=
  m.round_status.all (fun p => p.2 == .COMPLETED)

/-- States of a `RoundManager` reachable through `initialize_tournament`,
`start_round`, `mark_match_complete` and `complete_round` (claim C4's
reachability), starting from a freshly constructed manager. -/
inductive RMReach : RoundManager → Prop where
  | init : RMReach RoundManager.init0
  | initTournament {m} (schedule : List (List String)) :
      RMReach m → RMReach (m.initTournament schedule)
  | start {m m' : RoundManager} {n : Nat} :
      RMReach m → m.start_round n = some m' → RMReach m'
  | mark {m : RoundManager} (match_id : String) (n : Nat) :
      RMReach m → RMReach (m.mark_match_complete match_id n).1
  | complete {m : RoundManager} (n : Nat) :
      RMReach m → RMReach (m.complete_round n)

/- ========================================================================
   src/agents/league_manager/src/league_manager/standings/match_tracker.py
   ======================================================================== -/

/-- Record appended to `MatchTracker.matches` (match_tracker.py lines 10-19);
the timestamp is irrelevant to every tracked claim and omitted. -/
structure MatchResultRec where
  match_id : String
  player_a_id : String
  player_b_id : String
  winner_id : Option String
  result_type : String
  deriving DecidableEq, Repr

/-- Per-player statistics dict values (match_tracker.py lines 80-84). -/
structure PlayerStats where
  wins : Nat
  losses : Nat
  ties : Nat
  matches_played : Nat
  deriving DecidableEq, Repr

/-- State of a `MatchTracker` (match_tracker.py lines 30-34).  The source
field `matches` is rendered `match_list` because `matches` is a reserved
word in Lean. -/
structure MatchTracker where
  match_list : List MatchResultRec
  head_to_head : List ((String × String) × String)
  player_stats : List (String × PlayerStats)
  deriving DecidableEq, Repr

/-- Fresh `MatchTracker.__init__` state. -/
def MatchTracker.init0 : MatchTracker := { match_list := [], head_to_head := [], player_stats := [] }

/-- Embedding of `MatchTracker.record_match` (match_tracker.py lines 36-97).
The winner validity check (lines 57-58) runs before any mutation, so the
error case returns the tracker unchanged.  Mutations follow source order:
append the match record, write both head-to-head entries, initialise missing
player stats, then update the statistics. -/
def MatchTracker.record_match (tr : MatchTracker) (match_id player_a_id player_b_id : String)
    (winner_id : Option String) (result_type : String) : Except String MatchTracker :=
  if winner_id ≠ none ∧ winner_id ≠ some player_a_id ∧ winner_id ≠ some player_b_id then
    .error "Winner not in match players"
  else
    let newRec : MatchResultRec :=
      { match_id := match_id, player_a_id := player_a_id, player_b_id := player_b_id,
        winner_id := winner_id, result_type := result_type }
    let tr := { tr with match_list := tr.match_list ++ [newRec] }
    let tr :=
      if winner_id == some player_a_id then
        { tr with head_to_head := (dictSet
            (dictSet tr.head_to_head (player_a_id, player_b_id) "W")
            (player_b_id, player_a_id) "L") }
      else if winner_id == some player_b_id then
        { tr with head_to_head := (dictSet
            (dictSet tr.head_to_head (player_a_id, player_b_id) "L")
            (player_b_id, player_a_id) "W") }
      else
        { tr with head_to_head := (dictSet
            (dictSet tr.head_to_head (player_a_id, player_b_id) "T")
            (player_b_id, player_a_id) "T") }
    let initStats := fun (t : MatchTracker) (pid : String) =>
      if dictHas t.player_stats pid then t
      else { t with player_stats := (dictSet t.player_stats pid
              { wins := 0, losses := 0, ties := 0, matches_played := 0 }) }
    let tr := initStats (initStats tr player_a_id) player_b_id
    match winner_id with
    | none =>
      let tr := { tr with player_stats := (dictModify tr.player_stats player_a_id
        (fun s => { s with ties := s.ties + 1, matches_played := s.matches_played + 1 })) }
      let tr := { tr with player_stats := (dictModify tr.player_stats player_b_id
        (fun s => { s with ties := s.ties + 1, matches_played := s.matches_played + 1 })) }
      .ok tr
    | some w =>
      let loser_id := if w == player_a_id then player_b_id else player_a_id
      let tr := { tr with player_stats := (dictModify tr.player_stats w
        (fun s => { s with wins := s.wins + 1, matches_played := s.matches_played + 1 })) }
      let tr := { tr with player_stats := (dictModify tr.player_stats loser_id
        (fun s => { s with losses := s.losses + 1, matches_played := s.matches_played + 1 })) }
      .ok tr

/-- Embedding of `MatchTracker.get_head_to_head` (match_tracker.py lines 99-105). -/
def MatchTracker.get_head_to_head (tr : MatchTracker) (player_id opponent_id : String) :
    Option String :=
  dictGet? tr.head_to_head (player_id, opponent_id)

/- ========================================================================
   src/agents/league_manager/src/league_manager/standings/standings_calculator.py
   ======================================================================== -/

/-- Conservative Python dataclass `PlayerStanding`
(standings_calculator.py lines 11-21). -/
structure PlayerStanding where
  player_id : String
  display_name : String
  wins : Nat
  losses : Nat
  ties : Nat
  points : Nat
  matches_played : Nat
  rank : Nat
  deriving DecidableEq, Repr

/-- Default-initialised standing created by `add_player` (lines 35-39). -/
def PlayerStanding.new (player_id display_name : String) : PlayerStanding :=
  { player_id := player_id, display_name := display_name,
    wins := 0, losses := 0, ties := 0, points := 0, matches_played := 0, rank := 0 }

/-- State of a `StandingsCalculator` (standings_calculator.py lines 30-33):
the insertion-ordered `players` dict and the owned match tracker. -/
structure StandingsCalculator where
  players : List (String × PlayerStanding)
  match_tracker : MatchTracker
  deriving DecidableEq, Repr

/-- Fresh `StandingsCalculator.__init__` state (with a fresh tracker). -/
def StandingsCalculator.init0 : StandingsCalculator :=
  { players := [], match_tracker := MatchTracker.init0 }

/-- Embedding of `StandingsCalculator.add_player` (lines 35-39): stores a
fresh standing under the id, overwriting any previous entry. -/
def StandingsCalculator.add_player (c : StandingsCalculator)
    (player_id display_name : String) : StandingsCalculator :=
  { c with players := dictSet c.players player_id (PlayerStanding.new player_id display_name) }

/-- Embedding of `StandingsCalculator.record_match_result` (lines 41-71).
The result pairs the raised exception message (`none` on success) with the
object state when the call returns or raises; both `KeyError` checks and the
tracker's winner check run before any mutation, so every error branch
returns the state unchanged.  In-place mutations of the standing objects are
replayed in source order through `dictModify`, which reproduces CPython
object aliasing when the two player ids coincide. -/
def StandingsCalculator.record_match_result (c : StandingsCalculator)
    (match_id player_a_id player_b_id : String) (winner_id : Option String) :
    Option String × StandingsCalculator :=
  if ¬ dictHas c.players player_a_id then (some "KeyError: player_a", c)
  else if ¬ dictHas c.players player_b_id then (some "KeyError: player_b", c)
  else
    match c.match_tracker.record_match match_id player_a_id player_b_id winner_id "WIN" with
    | .error e => (some e, c)
    | .ok tr =>
      let c := { c with match_tracker := tr }
      let c := { c with players := (dictModify c.players player_a_id
        (fun p => { p with matches_played := p.matches_played + 1 })) }
      let c := { c with players := (dictModify c.players player_b_id
        (fun p => { p with matches_played := p.matches_played + 1 })) }
      match winner_id with
      | none =>
        let c := { c with players := (dictModify c.players player_a_id
          (fun p => { p with ties := p.ties + 1, points := p.points + 1 })) }
        let c := { c with players := (dictModify c.players player_b_id
          (fun p => { p with ties := p.ties + 1, points := p.points + 1 })) }
        (none, c)
      | some w =>
        if w == player_a_id then
          let c := { c with players := (dictModify c.players player_a_id
            (fun p => { p with wins := p.wins + 1, points := p.points + 3 })) }
          let c := { c with players := (dictModify c.players player_b_id
            (fun p => { p with losses := p.losses + 1 })) }
          (none, c)
        else
          let c := { c with players := (dictModify c.players player_b_id
            (fun p => { p with wins := p.wins + 1, points := p.points + 3 })) }
          let c := { c with players := (dictModify c.players player_a_id
            (fun p => { p with losses := p.losses + 1 })) }
          (none, c)

/-- Embedding of `StandingsCalculator._get_tiebreaker_value` (lines 97-112). -/
def StandingsCalculator.getTiebreakerValue (c : StandingsCalculator)
    (player : PlayerStanding) (all_players : List PlayerStanding) : Nat :=
  let tied_players := all_players.filter
    (fun p => p.points == player.points && p.player_id != player.player_id)
  match tied_players with
  | [opponent] =>
    match c.match_tracker.get_head_to_head player.player_id opponent.player_id with
    | some h => if h == "W" then 0 else if h == "L" then 1 else 0
    | none => 0
  | _ => 0

/-- Strict code-point lexicographic comparison of strings as char lists —
Python's `<` on `str`. -/
def strLtB : List Char → List Char → Bool
  | [], [] => false
  | [], _ :: _ => true
  | _ :: _, [] => false
  | a :: as, b :: bs =>
    if a.toNat < b.toNat then true
    else if b.toNat < a.toNat then false
    else strLtB as bs

/-- Sort key of `get_standings` (line 87-89): the Python tuple
`(-p.points, tiebreaker_value, p.player_id)`. -/
def sortKeyOf (tbv : List (String × Nat)) (p : PlayerStanding) : Int × Nat × List Char :=
  (-(p.points : Int), (dictGet? tbv p.player_id).getD 0, p.player_id.data)

/-- Python ascending comparison of the sort-key tuples (lexicographic). -/
def keyLe (a b : Int × Nat × List Char) : Bool :=
  if a.1 < b.1 then true
  else if b.1 < a.1 then false
  else if a.2.1 < b.2.1 then true
  else if b.2.1 < a.2.1 then false
  else if strLtB a.2.2 b.2.2 then true
  else if strLtB b.2.2 a.2.2 then false
  else true

/-- Rank assignment loop of `get_standings` (lines 92-93): `rank = index+1`,
with `i` the number of players already ranked. -/
def assignRanks : Nat → List PlayerStanding → List PlayerStanding
  | _, [] => []
  | i, p :: ps => { p with rank := i + 1 } :: assignRanks (i + 1) ps

/-- Precomputed tiebreaker dict of `get_standings` (lines 81-84): one entry
per stored standing, in dict order. -/
def tiebreaker_values (c : StandingsCalculator) : List (String × Nat) :=
  (c.players.map Prod.snd).map
    (fun p => (p.player_id, c.getTiebreakerValue p (c.players.map Prod.snd)))

/-- Ascending comparison of two standings under the sort key of
`get_standings` (lines 87-89). -/
def sortLe (c : StandingsCalculator) (p q : PlayerStanding) : Bool :=
  keyLe (sortKeyOf (tiebreaker_values c) p) (sortKeyOf (tiebreaker_values c) q)

/-- Embedding of `StandingsCalculator.get_standings` (lines 73-95): list the
stored standings in dict order, precompute the tiebreaker dict, stable-sort by
the tuple key ascending, then assign ranks. `list.sort` in CPython is a stable
mergesort, embedded as `List.mergeSort`. -/
def StandingsCalculator.get_standings (c : StandingsCalculator) : List PlayerStanding :=
  assignRanks 0 ((c.players.map Prod.snd).mergeSort (sortLe c))

/-- Modelled from the spec (claim C6 wording): the tiebreak value of `p` is 0
unless exactly one other player shares `p`'s point total, in which case it is
0 if `p` won the recorded head-to-head against that player, 1 if `p` lost it,
and 0 if they never played or tied.  Written from the claim's words (count of
sharers, then head-to-head lookup) for comparison with the code's
`_get_tiebreaker_value`. -/
def tiebreakSpec (c : StandingsCalculator) (p : PlayerStanding)
    (all_players : List PlayerStanding) : Nat :=
  if (all_players.countP (fun q => q.points = p.points ∧ q.player_id ≠ p.player_id)) = 1 then
    match all_players.find? (fun q => q.points == p.points && q.player_id != p.player_id) with
    | some q =>
      match c.match_tracker.get_head_to_head p.player_id q.player_id with
      | some "W" => 0
      | some "L" => 1
      | _ => 0
    | none => 0
  else 0

/-- Standing with the mutable `rank` field reset, used to compare standings
lists up to rank assignment. -/
def clearRank (p : PlayerStanding) : PlayerStanding := { p with rank := 0 }

/-- States of a `StandingsCalculator` reachable through `add_player` and
successful `record_match_result` calls (claim C7's reachability). -/
inductive CalcReach : StandingsCalculator → Prop where
  | init : CalcReach StandingsCalculator.init0
  | add {c} (pid dname : String) : CalcReach c → CalcReach (c.add_player pid dname)
  | record {c c' : StandingsCalculator} {mid pa pb : String} {w : Option String} :
      CalcReach c → c.record_match_result mid pa pb w = (none, c') → CalcReach c'

/- ========================================================================
   src/agents/referee_agent/src/referee/orchestration/choices.py
   ======================================================================== -/

/-- Nested `context` dict of a CHOOSE_PARITY_CALL payload
(choices.py lines 54-57); the `standings` entry is absent in the code. -/
structure ChoiceContext where
  opponent_id : String
  round_id : String
  deriving DecidableEq, Repr

/-- Top level of a `choice_params` dict.  In Python a dict-valued entry
holds a reference to the nested dict object, embedded here as an index into
a heap of `ChoiceContext` objects; the envelope fields (protocol, sender,
timestamps, auth token, deadline) are constants irrelevant to the tracked
claim and omitted. -/
structure ChoiceParams where
  player_id : String
  context : Nat
  deriving DecidableEq, Repr

/-- Fields of the CHOOSE_PARITY_CALL actually dispatched to one player, with
the context reference resolved at dispatch time. -/
structure DispatchedChoiceCall where
  player_id : String
  opponent_id : String
  round_id : String
  deriving DecidableEq, Repr

/-- Mutation of the heap object at reference `r`. -/
def heapModify : List ChoiceContext → Nat → (ChoiceContext → ChoiceContext) →
    List ChoiceContext
  | [], _, _ => []
  | c :: cs, 0, f => f c :: cs
  | c :: cs, r + 1, f => c :: heapModify cs r f

/-- Embedding of the payload construction of `collect_choices`
(choices.py lines 43-62).  Line 60 copies only the top level of the dict
(a Python shallow copy), so `choice_params_B.context` is the same reference
as `choice_params_A.context`, and the write on line 62 mutates the shared
context object.  The `asyncio.gather` dispatch (lines 66-84) happens after
that write, so each player receives the payload resolved against the final
heap. -/
def collect_choices_payloads (player_A_id player_B_id round_id : String) :
    DispatchedChoiceCall × DispatchedChoiceCall :=
  let heap : List ChoiceContext := [{ opponent_id := player_B_id, round_id := round_id }]
  let choice_params_A : ChoiceParams := { player_id := player_A_id, context := 0 }
  let choice_params_B : ChoiceParams := { choice_params_A with player_id := player_B_id }
  let heap := heapModify heap choice_params_B.context
    (fun c => { c with opponent_id := player_A_id })
  let resolve := fun (p : ChoiceParams) =>
    let ctx := heap.getD p.context { opponent_id := "", round_id := "" }
    ({ player_id := p.player_id, opponent_id := ctx.opponent_id,
       round_id := ctx.round_id } : DispatchedChoiceCall)
  (resolve choice_params_A, resolve choice_params_B)

/- ========================================================================
   src/agents/referee_agent/src/referee/game_orchestrator.py and
   src/agents/referee_agent/src/referee/orchestration/
     invitations.py, choices.py, evaluation.py, reporting.py
   ======================================================================== -/

/-- Outcome of one remote player call as observed through `asyncio.gather`
with `return_exceptions=True`: a raised exception or timeout captured as a
result, or the relevant field of the reply payload. -/
inductive CallOutcome (α : Type) where
  | exc (msg : String)
  | reply (value : α)
  deriving DecidableEq, Repr

/-- Remote behaviour of one match's environment: the two invitation replies
(the resolved `accept` flag; a missing field reads as `False`), the two
choice replies (the `parity_choice` field, `none` when absent), the drawn
number, and whether the result report call to the league manager raises. -/
structure MatchEnv where
  invite_A : CallOutcome Bool
  invite_B : CallOutcome Bool
  choice_A : CallOutcome (Option String)
  choice_B : CallOutcome (Option String)
  drawn_number : Nat
  report_error : Option String
  deriving DecidableEq, Repr

/-- MATCH_RESULT_REPORT messages sent to the league manager: a normal result
(reporting.py lines 60-101) or an ABORTED result with a reason
(reporting.py lines 104-152). -/
inductive LeagueReport where
  | matchResult (winner : Option String) (scores : List (String × Nat))
  | abortedReport (reason : String)
  deriving DecidableEq, Repr

/-- Embedding of `send_invitations` (invitations.py lines 15-107): the result
loop (lines 77-98) walks player A then player B, aborting on a captured
exception or timeout or on a non-accepting reply; on both accepting the
session advances to COLLECTING_CHOICES.  Timeouts surface as captured
exceptions inside the gather results, so they take the same path. -/
def send_invitations (resA resB : CallOutcome Bool) (game : GameStateMachine) :
    Bool × GameStateMachine :=
  match resA with
  | .exc _ => (false, (game.transition .ABORTED 1).2)
  | .reply acceptA =>
    if ¬ acceptA then (false, (game.transition .ABORTED 1).2)
    else
      match resB with
      | .exc _ => (false, (game.transition .ABORTED 1).2)
      | .reply acceptB =>
        if ¬ acceptB then (false, (game.transition .ABORTED 1).2)
        else (true, (game.transition .COLLECTING_CHOICES 1).2)

/-- Embedding of `collect_choices` (choices.py lines 16-122): the result loop
(lines 88-114) walks player A then player B, aborting on a captured
exception/timeout or on a value outside {"even","odd"} (an absent field reads
as `None`, which is outside); on success the insertion-ordered choices dict is
returned and the session advances to DRAWING_NUMBER. -/
def collect_choices (resA resB : CallOutcome (Option String))
    (player_A_id player_B_id : String) (game : GameStateMachine) :
    Option (List (String × String)) × GameStateMachine :=
  match resA with
  | .exc _ => (none, (game.transition .ABORTED 2).2)
  | .reply chA =>
    if ¬ (chA == some "even" ∨ chA == some "odd") then (none, (game.transition .ABORTED 2).2)
    else
      match resB with
      | .exc _ => (none, (game.transition .ABORTED 2).2)
      | .reply chB =>
        if ¬ (chB == some "even" ∨ chB == some "odd") then (none, (game.transition .ABORTED 2).2)
        else
          (some [(player_A_id, chA.getD ""), (player_B_id, chB.getD "")],
           (game.transition .DRAWING_NUMBER 2).2)

/-- Embedding of `draw_and_evaluate` (evaluation.py lines 12-49): transition
to EVALUATING, score, transition to FINISHED.  Both transitions are legal in
every run that reaches this phase (the session is in DRAWING_NUMBER). -/
def draw_and_evaluate (drawn : Nat) (game : GameStateMachine)
    (choices : List (String × String)) : GameResult × GameStateMachine :=
  let game := (game.transition .EVALUATING 3).2
  let result := determine_winner drawn choices
  let game := (game.transition .FINISHED 3).2
  (result, game)

/-- Final session state and league-manager reports of one orchestration run. -/
structure OrchestrationRun where
  game : GameStateMachine
  reports : List LeagueReport
  deriving DecidableEq, Repr

/-- Embedding of `orchestrate_game` (game_orchestrator.py lines 27-90).
When `send_invitations` or `collect_choices` reports failure the function
returns at once (lines 60-62 and 65-67) without any report.  `notify_players`
gathers with `return_exceptions=True` and cannot raise.  When `report_result`
raises, the except branch (lines 80-88) first attempts
`game.transition(ABORTED)`; the session is FINISHED by then, so that call
itself raises and `report_aborted_game` is never reached. -/
def orchestrate_game (match_id player_A_id player_B_id : String) (env : MatchEnv) :
    OrchestrationRun :=
  let game := GameStateMachine.mk0 match_id 0
  let r1 := send_invitations env.invite_A env.invite_B game
  if ¬ r1.1 then { game := r1.2, reports := [] }
  else
    let r2 := collect_choices env.choice_A env.choice_B player_A_id player_B_id r1.2
    match r2.1 with
    | none => { game := r2.2, reports := [] }
    | some choices =>
      let r3 := draw_and_evaluate env.drawn_number r2.2 choices
      match env.report_error with
      | none =>
        { game := r3.2,
          reports := [LeagueReport.matchResult r3.1.winner_player_id r3.1.scores] }
      | some e =>
        let r4 := r3.2.transition .ABORTED 4
        match r4.1 with
        | none => { game := r4.2, reports := [LeagueReport.abortedReport e] }
        | some _ => { game := r4.2, reports := [] }

/- ========================================================================
   src/agents/league_manager/src/league_manager/broadcast/
     broadcaster.py, message_sender.py, result_processor.py,
     delivery_report.py
   ======================================================================== -/

/-- Recipient metadata dict fields read by the broadcast layer. -/
structure Agent where
  player_id : Option String
  referee_id : Option String
  endpoint : Option String
  deriving DecidableEq, Repr

/-- Python `a or b` over an optional string: `None` and `""` are falsy. -/
def pyOr (s : Option String) (dflt : String) : String :=
  match s with
  | some v => if v == "" then dflt else v
  | none => dflt

/-- Embedding of `_get_agent_id` (result_processor.py lines 49-64):
`agent.get("player_id") or agent.get("referee_id") or "unknown"`. -/
def get_agent_id (a : Agent) : String :=
  pyOr a.player_id (pyOr a.referee_id "unknown")

/-- Result of one `send_to_agent` call as captured by `asyncio.gather` with
`return_exceptions=True`: `True`, a raised exception (timeout or HTTP error
after all retries, missing endpoint, or any other failure), or a non-True
value (the dead `return False` at the end of the retry loop). -/
inductive SendResult where
  | success
  | exc (msg : String)
  | falseReturn
  deriving DecidableEq, Repr

/-- The `DeliveryReport` object (delivery_report.py lines 9-28). -/
structure DeliveryReport where
  total : Nat
  successful : Nat
  failed : Nat
  failed_agents : List String
  errors : List (String × String)
  deriving DecidableEq, Repr

/-- Fresh `DeliveryReport.__init__` state. -/
def DeliveryReport.empty : DeliveryReport :=
  { total := 0, successful := 0, failed := 0, failed_agents := [], errors := [] }

/-- Body of the loop of `ResultProcessor.process_results`
(result_processor.py lines 30-47). -/
def processOne (report : DeliveryReport) (agent : Agent) (result : SendResult) :
    DeliveryReport :=
  match result with
  | .exc msg =>
    { report with
      failed := report.failed + 1
      failed_agents := report.failed_agents ++ [get_agent_id agent]
      errors := dictSet report.errors (get_agent_id agent) msg }
  | .success => { report with successful := report.successful + 1 }
  | .falseReturn =>
    { report with
      failed := report.failed + 1
      failed_agents := report.failed_agents ++ [get_agent_id agent]
      errors := dictSet report.errors (get_agent_id agent) "Unknown error" }

/-- Embedding of `ResultProcessor.process_results` (lines 16-47): fold the
loop body over `zip(agents, results)`. -/
def process_results (agents : List Agent) (results : List SendResult)
    (report : DeliveryReport) : DeliveryReport :=
  (agents.zip results).foldl (fun r p => processOne r p.1 p.2) report

/-- Embedding of `MessageSender.send_to_agent` (message_sender.py lines
31-100) at the level the claims observe: a recipient with no endpoint (or an
empty one) raises `ValueError` before any attempt; otherwise the network
environment `net` decides whether the delivery finally succeeds, finally
raises after the bounded retries, or falls off the loop. -/
def send_to_agent_outcome (net : Agent → SendResult) (a : Agent) : SendResult :=
  match a.endpoint with
  | none => .exc "Agent has no endpoint"
  | some e => if e == "" then .exc "Agent has no endpoint" else net a

/-- Embedding of `Broadcaster._broadcast_to_agents` (broadcaster.py lines
83-126): build a fresh report with `total = len(agents)`, return it at once
when there are no recipients, otherwise gather every delivery and process
the results. -/
def broadcast_to_agents (agents : List Agent) (net : Agent → SendResult) :
    DeliveryReport :=
  let report := { DeliveryReport.empty with total := agents.length }
  if agents.isEmpty then report
  else process_results agents (agents.map (send_to_agent_outcome net)) report

/- ========================================================================
   Spec predicates used by the claim theorems
   ======================================================================== -/

/-- Property asserted of one `transition` call by claim C5: success exactly on
the claimed edge set; rejected calls leave the object unchanged; successful
calls set the state and append exactly one history entry. -/
def TransitionSpec (m : GameStateMachine) (t : GameState) (now : Nat) : Prop :=
  ((m.transition t now).1 = none ↔ claimEdge m.state t = true) ∧
  ((m.transition t now).1 ≠ none → (m.transition t now).2 = m) ∧
  ((m.transition t now).1 = none →
    (m.transition t now).2.state = t ∧
    (m.transition t now).2.history = m.history ++ [(t, now)] ∧
    (m.transition t now).2.match_id = m.match_id)

/-- Amended claim C4: `is_tournament_complete` is true exactly when every
round registered in `round_status` is COMPLETED (no condition on
`current_round`). -/
def TournamentCompleteSpec (m : RoundManager) : Prop :=
  m.is_tournament_complete = true ↔ ∀ p ∈ m.round_status, p.2 = RoundStatus.COMPLETED

/-- Amended claim C3, for one match between distinct players `pa`, `pb` with
choices `ca`, `cb`: a winner is selected iff some choice equals the drawn
parity — when `ca` matches, `pa` wins (this includes the both-match case,
where the first-encountered key wins); when only `cb` matches, `pb` wins; the
winner scores 3 and the other player 0, so scores sum to 3; when neither
choice matches the parity, no winner is selected and both scores are 0. -/
def TwoPlayerOutcomeSpec (drawn : Nat) (pa pb ca cb : String) : Prop :=
  (ca = (determine_winner drawn [(pa, ca), (pb, cb)]).number_parity →
    (determine_winner drawn [(pa, ca), (pb, cb)]).winner_player_id = some pa ∧
    scoreOf (determine_winner drawn [(pa, ca), (pb, cb)]) pa = 3 ∧
    scoreOf (determine_winner drawn [(pa, ca), (pb, cb)]) pb = 0 ∧
    sumScores (determine_winner drawn [(pa, ca), (pb, cb)]) = 3) ∧
  (ca ≠ (determine_winner drawn [(pa, ca), (pb, cb)]).number_parity →
   cb = (determine_winner drawn [(pa, ca), (pb, cb)]).number_parity →
    (determine_winner drawn [(pa, ca), (pb, cb)]).winner_player_id = some pb ∧
    scoreOf (determine_winner drawn [(pa, ca), (pb, cb)]) pa = 0 ∧
    scoreOf (determine_winner drawn [(pa, ca), (pb, cb)]) pb = 3 ∧
    sumScores (determine_winner drawn [(pa, ca), (pb, cb)]) = 3) ∧
  (ca ≠ (determine_winner drawn [(pa, ca), (pb, cb)]).number_parity →
   cb ≠ (determine_winner drawn [(pa, ca), (pb, cb)]).number_parity →
    (determine_winner drawn [(pa, ca), (pb, cb)]).winner_player_id = none ∧
    scoreOf (determine_winner drawn [(pa, ca), (pb, cb)]) pa = 0 ∧
    scoreOf (determine_winner drawn [(pa, ca), (pb, cb)]) pb = 0 ∧
    sumScores (determine_winner drawn [(pa, ca), (pb, cb)]) = 0)

/-- Environment in which player A rejects the game invitation. -/
def rejectionEnv : MatchEnv :=
  { invite_A := .reply false, invite_B := .reply true,
    choice_A := .reply (some "even"), choice_B := .reply (some "odd"),
    drawn_number := 4, report_error := none }

/-- Environment in which the invitation call to player B times out (the
timeout surfaces as a captured exception in the gather results). -/
def inviteTimeoutEnv : MatchEnv :=
  { invite_A := .reply true, invite_B := .exc "TimeoutError",
    choice_A := .reply (some "even"), choice_B := .reply (some "odd"),
    drawn_number := 4, report_error := none }

/-- Environment in which player A returns a parity choice outside
{"even","odd"}. -/
def badChoiceEnv : MatchEnv :=
  { invite_A := .reply true, invite_B := .reply true,
    choice_A := .reply (some "banana"), choice_B := .reply (some "odd"),
    drawn_number := 4, report_error := none }

/-- Reachable RoundManager state exhibiting claim C4's failure: one round is
completed without ever having been started. -/
def rmCompletedUnstarted : RoundManager :=
  (RoundManager.init0.initTournament [["M1"]]).complete_round 1

/-- Claim C9's delivery-report property for one broadcast call: the counts
satisfy `successful + failed == total` with `total` the number of recipients,
and every recipient whose delivery did not succeed appears in `failed_agents`
with an entry in the `errors` dict. -/
def BroadcastReportSpec (agents : List Agent) (net : Agent → SendResult) : Prop :=
  (broadcast_to_agents agents net).total = agents.length ∧
  (broadcast_to_agents agents net).successful + (broadcast_to_agents agents net).failed
    = (broadcast_to_agents agents net).total ∧
  ∀ a ∈ agents, send_to_agent_outcome net a ≠ SendResult.success →
    get_agent_id a ∈ (broadcast_to_agents agents net).failed_agents ∧
    dictHas (broadcast_to_agents agents net).errors (get_agent_id a) = true

/-- Claim C10's atomicity property for one `record_match_result` call: with a
player id that was never added, or a winner id that is neither player nor
null, the call raises and the whole calculator state (standings, head-to-head
records and every match-tracker structure) is unchanged. -/
def RecordErrorAtomicSpec (c : StandingsCalculator) (mid pa pb : String)
    (w : Option String) : Prop :=
  (dictHas c.players pa = false ∨ dictHas c.players pb = false ∨
    (∃ x, w = some x ∧ x ≠ pa ∧ x ≠ pb)) →
  (c.record_match_result mid pa pb w).1 ≠ none ∧
  (c.record_match_result mid pa pb w).2 = c

/-- Claim C7's invariant: every stored standing has
`points = 3 * wins + ties`. -/
def PointsInvariant (c : StandingsCalculator) : Prop :=
  ∀ pr ∈ c.players, pr.2.points = 3 * pr.2.wins + pr.2.ties

/-- Claim C7's increment property: both named players' `matches_played`
counters grow by exactly one across a call. -/
def MatchesPlayedIncrement (c c' : StandingsCalculator) (pa pb : String) : Prop :=
  ∃ sa sb sa' sb',
    dictGet? c.players pa = some sa ∧ dictGet? c.players pb = some sb ∧
    dictGet? c'.players pa = some sa' ∧ dictGet? c'.players pb = some sb' ∧
    sa'.matches_played = sa.matches_played + 1 ∧
    sb'.matches_played = sb.matches_played + 1

/-- Sort key of claim C6, written from the claim's words: the tuple
`(-points, tiebreak_value, player_id)` with the tiebreak value of the
spec-modelled `tiebreakSpec`, computed against the list of stored
standings. -/
def specKey (c : StandingsCalculator) (p : PlayerStanding) : Int × Nat × List Char :=
  (-(p.points : Int), tiebreakSpec c p (c.players.map Prod.snd), p.player_id.data)

/-- Claim C6's property of `get_standings`: the returned list carries the
stored standings (up to the reassigned ranks), is sorted ascending by the
key `(-points, tiebreak_value, player_id)` with the claim's tiebreak value,
ranks are `index + 1`, and the code's tiebreaker agrees with the claim's
tiebreak description everywhere. -/
def StandingsSpec (c : StandingsCalculator) : Prop :=
  ((c.get_standings).map clearRank).Perm ((c.players.map Prod.snd).map clearRank) ∧
  (∀ i, ∀ h : i < c.get_standings.length, (c.get_standings.get ⟨i, h⟩).rank = i + 1) ∧
  c.get_standings.Pairwise (fun p q => keyLe (specKey c p) (specKey c q) = true) ∧
  (∀ (p : PlayerStanding) (all_players : List PlayerStanding),
    c.getTiebreakerValue p all_players = tiebreakSpec c p all_players)

/- ========================================================================
   Claim theorems
   ======================================================================== -/

/-- C1: the scheduler violates the claim.  On the 5-player list
`["P1","P2","P3","P4","P5"]` (size ≥ 2) `create_round_robin_schedule`
produces only 8 matches, not C(5,2) = 10: the greedy placement loop finds no
admissible round for the pairs (P3,P5) and (P4,P5) and silently drops them,
so these unordered pairs appear in no round at all.  This contradicts the
function's own docstring, "Each player plays every other player exactly
once." -/
theorem c1_scheduler_drops_pairs :
    2 ≤ (["P1", "P2", "P3", "P4", "P5"] : List String).length ∧
    Nat.choose 5 2 = 10 ∧
    totalMatches (create_round_robin_schedule ["P1", "P2", "P3", "P4", "P5"]) = 8 ∧
    (∀ r ∈ create_round_robin_schedule ["P1", "P2", "P3", "P4", "P5"],
      ("P3", "P5") ∉ r ∧ ("P5", "P3") ∉ r) ∧
    (∀ r ∈ create_round_robin_schedule ["P1", "P2", "P3", "P4", "P5"],
      ("P4", "P5") ∉ r ∧ ("P5", "P4") ∉ r) := by decide

/-- C2: the orchestrator violates the claim.  In the environments where a
player rejects the invitation, where an invitation call times out, and where
a returned choice is outside {"even","odd"}, the session transitions to
ABORTED but `orchestrate_game` returns without sending any
MATCH_RESULT_REPORT — the early returns after `send_invitations` and
`collect_choices` bypass `report_aborted_game`, so no ABORTED result ever
reaches the league manager. -/
theorem c2_abort_goes_unreported :
    ((orchestrate_game "R1M1" "P01" "P02" rejectionEnv).game.state = GameState.ABORTED ∧
     (orchestrate_game "R1M1" "P01" "P02" rejectionEnv).reports = []) ∧
    ((orchestrate_game "R1M1" "P01" "P02" inviteTimeoutEnv).game.state = GameState.ABORTED ∧
     (orchestrate_game "R1M1" "P01" "P02" inviteTimeoutEnv).reports = []) ∧
    ((orchestrate_game "R1M1" "P01" "P02" badChoiceEnv).game.state = GameState.ABORTED ∧
     (orchestrate_game "R1M1" "P01" "P02" badChoiceEnv).reports = []) := by decide

/-- C3 counterexample: with drawn number 1 (odd) and both players choosing
"even", `determine_winner` selects no winner — `winner_player_id` is `None`
and both scores are 0, so the scores sum to 0, not 3.  This refutes the
claim that a winner (the first-encountered key, on equal choices) is always
selected and that the scores always sum to 3. -/
theorem c3_counterexample :
    (determine_winner 1 [("P01", "even"), ("P02", "even")]).winner_player_id = none ∧
    scoreOf (determine_winner 1 [("P01", "even"), ("P02", "even")]) "P01" = 0 ∧
    scoreOf (determine_winner 1 [("P01", "even"), ("P02", "even")]) "P02" = 0 ∧
    sumScores (determine_winner 1 [("P01", "even"), ("P02", "even")]) = 0 := by decide

/-- C3 (amended): for every drawn number in [1,10] and two distinct players,
`determine_winner` selects the player whose choice equals the parity; when
both chose the parity symbol the first-encountered key (player A) wins; the
winner scores 3 and the other 0 (sum 3); and when both chose the non-matching
symbol, no winner is selected and both scores are 0. -/
theorem c3_amended_determine_winner (drawn : Nat) (pa pb ca cb : String)
    (_hdr : 1 ≤ drawn ∧ drawn ≤ 10) (hne : pa ≠ pb)
    (hca : ca = "even" ∨ ca = "odd") (hcb : cb = "even" ∨ cb = "odd") :
    TwoPlayerOutcomeSpec drawn pa pb ca cb := by
  have hba : (pb == pa) = false := by
    simp [beq_eq_false_iff_ne]
    exact fun h => hne h.symm
  have hab : (pa == pb) = false := by simp [beq_eq_false_iff_ne, hne]
  rcases hca with h1 | h1 <;> rcases hcb with h2 | h2 <;> subst h1 <;> subst h2 <;>
    by_cases hd : drawn % 2 == 0 <;>
    simp [TwoPlayerOutcomeSpec, determine_winner, scoreOf, sumScores, dictGet?,
      hd, hab, hba, List.find?] <;>
    first
    | exact hne
    | exact fun h => hne h.symm

/-- C3 witness: the amended statement applied at drawn number 2 with players
"A" choosing "even" and "B" choosing "odd". -/
theorem c3_amended_witness :
    (1 ≤ 2 ∧ 2 ≤ 10) ∧ ("A" : String) ≠ "B" ∧
    TwoPlayerOutcomeSpec 2 "A" "B" "even" "odd" :=
  ⟨by decide, by decide,
   c3_amended_determine_winner 2 "A" "B" "even" "odd" (by decide) (by decide)
     (Or.inl rfl) (Or.inr rfl)⟩

/-- C4 counterexample: a state reachable through `initialize_tournament`
followed by `complete_round 1` (the round is completed without ever being
started) satisfies `is_tournament_complete() = true` while `current_round`
is still `None` and `total_rounds = 1`, so completeness does not require
`current_round == total_rounds`. -/
theorem c4_counterexample :
    RMReach rmCompletedUnstarted ∧
    rmCompletedUnstarted.is_tournament_complete = true ∧
    rmCompletedUnstarted.total_rounds = 1 ∧
    rmCompletedUnstarted.current_round = none :=
  ⟨RMReach.complete 1 (RMReach.initTournament [["M1"]] RMReach.init),
   by decide, by decide, by decide⟩

/-- C4 (amended): for every reachable RoundManager state,
`is_tournament_complete()` returns true iff every round's status is
COMPLETED; the code never consults `current_round`. -/
theorem c4_amended_is_tournament_complete (m : RoundManager) (_hm : RMReach m) :
    TournamentCompleteSpec m := by
  simp [TournamentCompleteSpec, RoundManager.is_tournament_complete, List.all_eq_true]

/-- C4 witness: the amended statement applied to a freshly initialised
two-round tournament. -/
theorem c4_amended_witness :
    RMReach (RoundManager.init0.initTournament [["M1"], ["M2"]]) ∧
    TournamentCompleteSpec (RoundManager.init0.initTournament [["M1"], ["M2"]]) :=
  ⟨RMReach.initTournament [["M1"], ["M2"]] RMReach.init,
   c4_amended_is_tournament_complete _
     (RMReach.initTournament [["M1"], ["M2"]] RMReach.init)⟩

/-- C5: `transition` succeeds exactly on the edges of the claimed table
(the chain WAITING_FOR_PLAYERS → COLLECTING_CHOICES → DRAWING_NUMBER →
EVALUATING → FINISHED plus ABORTED from the first two states, FINISHED and
ABORTED terminal); a rejected transition raises and leaves state and history
unchanged; a successful transition sets the state and appends exactly one
(state, timestamp) entry to the history. -/
theorem c5_transition_table (m : GameStateMachine) (t : GameState) (now : Nat) :
    TransitionSpec m t now := by
  obtain ⟨mid, s, h⟩ := m
  cases s <;> cases t <;>
    simp [TransitionSpec, GameStateMachine.transition, TRANSITIONS, claimEdge]

/-- C5 witness: the transition spec applied to a fresh machine and the
COLLECTING_CHOICES target. -/
theorem c5_transition_witness :
    TransitionSpec (GameStateMachine.mk0 "R1M1" 0) GameState.COLLECTING_CHOICES 1 :=
  c5_transition_table (GameStateMachine.mk0 "R1M1" 0) GameState.COLLECTING_CHOICES 1

/-- C8: the CHOOSE_PARITY_CALL dispatched to player A carries the wrong
opponent.  Because `choice_params_B = \x7b**choice_params_A\x7d` copies only the
top level of the dict, both payloads share one context object, and the
assignment of player A's id into player B's context also rewrites player A's:
for the match (P01, P02) the request sent to P01 carries
`context.opponent_id = "P01"` — its own id — instead of "P02".  (The request
to P02 correctly carries "P01".) -/
theorem c8_opponent_id_aliasing :
    (collect_choices_payloads "P01" "P02" "1").1.player_id = "P01" ∧
    (collect_choices_payloads "P01" "P02" "1").1.opponent_id = "P01" ∧
    (collect_choices_payloads "P01" "P02" "1").1.opponent_id ≠ "P02" ∧
    (collect_choices_payloads "P01" "P02" "1").2.player_id = "P02" ∧
    (collect_choices_payloads "P01" "P02" "1").2.opponent_id = "P01" := by decide

/- ========================================================================
   Dictionary lemmas
   ======================================================================== -/

/-- Unfolding of lookup over a cons cell. -/
theorem dictGet?_cons {κ α : Type} [BEq κ] (q : κ × α) (d : List (κ × α)) (k : κ) :
    dictGet? (q :: d) k = if (q.1 == k) = true then some q.2 else dictGet? d k := by
  by_cases h : (q.1 == k) = true
  · simp [dictGet?, List.find?_cons_of_pos _ h, h]
  · simp [dictGet?, List.find?_cons_of_neg _ h, h]

/-- Unfolding of membership over a cons cell. -/
theorem dictHas_cons {κ α : Type} [BEq κ] (q : κ × α) (d : List (κ × α)) (k : κ) :
    dictHas (q :: d) k = ((q.1 == k) || dictHas d k) := by
  simp [dictHas]

/-- Unfolding of `dictModify` over a cons cell. -/
theorem dictModify_cons {κ α : Type} [BEq κ] (q : κ × α) (d : List (κ × α))
    (k : κ) (f : α → α) :
    dictModify (q :: d) k f
      = (if (q.1 == k) = true then (q.1, f q.2) else q) :: dictModify d k f := by
  by_cases h : (q.1 == k) = true <;> simp [dictModify, h]

/-- Membership in `dictSet d k v` is membership in `d` or being the new
entry. -/
theorem mem_dictSet_cases {κ α : Type} [BEq κ] {d : List (κ × α)} {k : κ} {v : α}
    {p : κ × α} (hp : p ∈ dictSet d k v) : p = (k, v) ∨ p ∈ d := by
  unfold dictSet at hp
  split at hp
  · rcases List.mem_map.1 hp with ⟨q, hq, hqe⟩
    by_cases h : q.1 == k
    · left
      simp [h] at hqe
      exact hqe.symm
    · right
      simp [h] at hqe
      subst hqe
      exact hq
  · rcases List.mem_append.1 hp with h | h
    · right; exact h
    · left; simpa using h

/-- Membership in `dictModify d k f` is membership in `d` or being a
modified entry of `d`. -/
theorem mem_dictModify_cases {κ α : Type} [BEq κ] {d : List (κ × α)} {k : κ}
    {f : α → α} {p : κ × α} (hp : p ∈ dictModify d k f) :
    p ∈ d ∨ ∃ q ∈ d, p = (q.1, f q.2) := by
  unfold dictModify at hp
  rcases List.mem_map.1 hp with ⟨q, hq, hqe⟩
  by_cases h : q.1 == k
  · right
    exact ⟨q, hq, by simp [h] at hqe; exact hqe.symm⟩
  · left
    simp [h] at hqe
    subst hqe
    exact hq

/-- The key just written by `dictSet` is present afterwards. -/
theorem dictHas_dictSet_self {κ α : Type} [BEq κ] [LawfulBEq κ]
    (d : List (κ × α)) (k : κ) (v : α) : dictHas (dictSet d k v) k = true := by
  unfold dictHas dictSet
  split
  · rename_i h
    rcases List.any_eq_true.1 h with ⟨q, hq, hqk⟩
    refine List.any_eq_true.2 ⟨(k, v), List.mem_map.2 ⟨q, hq, by simp [hqk]⟩, by simp⟩
  · exact List.any_eq_true.2 ⟨(k, v), by simp, by simp⟩

/-- A key present before `dictSet` is still present afterwards. -/
theorem dictHas_dictSet_mono {κ α : Type} [BEq κ] [LawfulBEq κ]
    {d : List (κ × α)} {x : κ} (k : κ) (v : α) (h : dictHas d x = true) :
    dictHas (dictSet d k v) x = true := by
  unfold dictHas at h ⊢
  unfold dictSet
  rcases List.any_eq_true.1 h with ⟨q, hq, hqx⟩
  split
  · refine List.any_eq_true.2 ?_
    by_cases hk : q.1 == k
    · refine ⟨(k, v), List.mem_map.2 ⟨q, hq, by simp [hk]⟩, ?_⟩
      have h1 : q.1 = k := by simpa using hk
      have h2 : q.1 = x := by simpa using hqx
      simp [← h1, h2]
    · exact ⟨q, List.mem_map.2 ⟨q, hq, by simp [hk]⟩, hqx⟩
  · exact List.any_eq_true.2 ⟨q, List.mem_append_left _ hq, hqx⟩

/-- Lookup of the modified key through `dictModify`. -/
theorem dictGet?_dictModify_self {κ α : Type} [BEq κ] [LawfulBEq κ]
    (d : List (κ × α)) (k : κ) (f : α → α) :
    dictGet? (dictModify d k f) k = (dictGet? d k).map f := by
  induction d with
  | nil => rfl
  | cons q rest ih =>
    rw [dictModify_cons]
    by_cases h : (q.1 == k) = true
    · rw [if_pos h, dictGet?_cons, dictGet?_cons, if_pos h]
      simp [h]
    · rw [if_neg h, dictGet?_cons, dictGet?_cons, if_neg h, if_neg h, ih]

/-- Lookup of an unmodified key through `dictModify`. -/
theorem dictGet?_dictModify_other {κ α : Type} [BEq κ] [LawfulBEq κ]
    {d : List (κ × α)} {k x : κ} (f : α → α) (hne : x ≠ k) :
    dictGet? (dictModify d k f) x = dictGet? d x := by
  induction d with
  | nil => rfl
  | cons q rest ih =>
    rw [dictModify_cons]
    by_cases h : (q.1 == k) = true
    · have h1 : q.1 = k := by simpa using h
      have hqx : (q.1 == x) = false := by
        simp [h1]
        exact fun hc => hne hc.symm
      rw [if_pos h, dictGet?_cons, dictGet?_cons]
      simp only [hqx]
      simp [ih]
    · rw [if_neg h, dictGet?_cons, dictGet?_cons]
      by_cases hqx : (q.1 == x) = true
      · rw [if_pos hqx, if_pos hqx]
      · rw [if_neg hqx, if_neg hqx, ih]

/-- A present key has a `some` lookup. -/
theorem dictGet?_isSome_of_dictHas {κ α : Type} [BEq κ] {d : List (κ × α)}
    {k : κ} (h : dictHas d k = true) : (dictGet? d k).isSome = true := by
  induction d with
  | nil => simp [dictHas] at h
  | cons q rest ih =>
    rw [dictHas_cons] at h
    rw [dictGet?_cons]
    by_cases hq : (q.1 == k) = true
    · rw [if_pos hq]; rfl
    · rw [if_neg hq]
      simp only [hq, Bool.false_or] at h
      exact ih h

/-- Zipping a list with its own image under `f` pairs every element with its
image. -/
theorem zip_map_self {α β : Type} (l : List α) (f : α → β) :
    l.zip (l.map f) = l.map (fun x => (x, f x)) := by
  induction l with
  | nil => rfl
  | cons a tl ih => simp [ih]

/- ========================================================================
   Claim C9
   ======================================================================== -/

/-- One processed result preserves `total` and grows `successful + failed` by
exactly one. -/
theorem processOne_counts (r : DeliveryReport) (a : Agent) (s : SendResult) :
    (processOne r a s).total = r.total ∧
    (processOne r a s).successful + (processOne r a s).failed
      = r.successful + r.failed + 1 := by
  cases s <;> simp [processOne] <;> omega

/-- One processed result only appends to `failed_agents` and `errors`. -/
theorem processOne_mono (r : DeliveryReport) (a : Agent) (s : SendResult) :
    (∀ x ∈ r.failed_agents, x ∈ (processOne r a s).failed_agents) ∧
    (∀ k, dictHas r.errors k = true → dictHas (processOne r a s).errors k = true) := by
  cases s with
  | success => exact ⟨fun x hx => hx, fun k hk => hk⟩
  | exc msg =>
    exact ⟨fun x hx => by simp [processOne, hx],
           fun k hk => dictHas_dictSet_mono _ _ hk⟩
  | falseReturn =>
    exact ⟨fun x hx => by simp [processOne, hx],
           fun k hk => dictHas_dictSet_mono _ _ hk⟩

/-- A failed result is recorded in `failed_agents` and `errors`. -/
theorem processOne_failed (r : DeliveryReport) (a : Agent) (s : SendResult)
    (hs : s ≠ SendResult.success) :
    get_agent_id a ∈ (processOne r a s).failed_agents ∧
    dictHas (processOne r a s).errors (get_agent_id a) = true := by
  cases s with
  | success => exact absurd rfl hs
  | exc msg => exact ⟨by simp [processOne], dictHas_dictSet_self _ _ _⟩
  | falseReturn => exact ⟨by simp [processOne], dictHas_dictSet_self _ _ _⟩

/-- Fold invariant of `process_results` over the zipped agent/result pairs. -/
theorem process_results_fold_spec (pairs : List (Agent × SendResult)) :
    ∀ (r : DeliveryReport),
    (pairs.foldl (fun acc p => processOne acc p.1 p.2) r).total = r.total ∧
    (pairs.foldl (fun acc p => processOne acc p.1 p.2) r).successful
      + (pairs.foldl (fun acc p => processOne acc p.1 p.2) r).failed
      = r.successful + r.failed + pairs.length ∧
    (∀ x ∈ r.failed_agents,
      x ∈ (pairs.foldl (fun acc p => processOne acc p.1 p.2) r).failed_agents) ∧
    (∀ k, dictHas r.errors k = true →
      dictHas (pairs.foldl (fun acc p => processOne acc p.1 p.2) r).errors k = true) ∧
    (∀ p ∈ pairs, p.2 ≠ SendResult.success →
      get_agent_id p.1 ∈ (pairs.foldl (fun acc p => processOne acc p.1 p.2) r).failed_agents ∧
      dictHas
        (pairs.foldl (fun acc p => processOne acc p.1 p.2) r).errors (get_agent_id p.1)
        = true) := by
  induction pairs with
  | nil =>
    intro r
    refine ⟨rfl, by simp, fun x hx => hx, fun k hk => hk, by simp⟩
  | cons hd tl ih =>
    intro r
    obtain ⟨iht, ihc, ihf, ihe, ihp⟩ := ih (processOne r hd.1 hd.2)
    obtain ⟨hct, hcc⟩ := processOne_counts r hd.1 hd.2
    obtain ⟨hmf, hme⟩ := processOne_mono r hd.1 hd.2
    refine ⟨by simpa [hct] using iht, ?_, ?_, ?_, ?_⟩
    · simp only [List.foldl_cons, List.length_cons]
      omega
    · intro x hx
      exact ihf x (hmf x hx)
    · intro k hk
      exact ihe k (hme k hk)
    · intro p hp hps
      rcases List.mem_cons.1 hp with hp | hp
      · subst hp
        obtain ⟨h1, h2⟩ := processOne_failed r p.1 p.2 hps
        exact ⟨ihf _ h1, ihe _ h2⟩
      · exact ihp p hp hps

/-- C9: for every recipient list (including the empty one) and every mix of
success, exception, timeout and missing-endpoint outcomes, the returned
report satisfies `successful + failed = total` with `total` the recipient
count, and every failed recipient's id is recorded in `failed_agents`
together with an error message in `errors`. -/
theorem c9_delivery_report_consistent (agents : List Agent)
    (net : Agent → SendResult) : BroadcastReportSpec agents net := by
  unfold BroadcastReportSpec
  by_cases hag : agents.isEmpty = true
  · have : agents = [] := List.isEmpty_iff.1 hag
    subst this
    simp [broadcast_to_agents, DeliveryReport.empty]
  · have hbr : broadcast_to_agents agents net
        = process_results agents (agents.map (send_to_agent_outcome net))
            { DeliveryReport.empty with total := agents.length } := by
      unfold broadcast_to_agents
      rw [if_neg hag]
    rw [hbr]
    unfold process_results
    rw [zip_map_self]
    obtain ⟨ht, hc, _, _, hp⟩ :=
      process_results_fold_spec (agents.map (fun x => (x, send_to_agent_outcome net x)))
        { DeliveryReport.empty with total := agents.length }
    refine ⟨by simpa [DeliveryReport.empty] using ht, ?_, ?_⟩
    · rw [hc, ht]
      simp [DeliveryReport.empty]
    · intro a ha hfail
      exact hp (a, send_to_agent_outcome net a) (List.mem_map.2 ⟨a, ha, rfl⟩) hfail

/-- C9 witness: the report property applied to a three-recipient broadcast
with one missing endpoint and one final timeout. -/
theorem c9_delivery_report_witness :
    BroadcastReportSpec
      [ { player_id := some "P1", referee_id := none, endpoint := some "http://a" },
        { player_id := some "P2", referee_id := none, endpoint := none },
        { player_id := some "P3", referee_id := none, endpoint := some "http://c" } ]
      (fun a => if get_agent_id a == "P3" then SendResult.exc "timeout"
                else SendResult.success) :=
  c9_delivery_report_consistent _ _

/- ========================================================================
   Claim C10
   ======================================================================== -/

/-- C10: `record_match_result` raises on an unknown player id or an invalid
winner id and in that case is atomic — the calculator state (standings dict,
head-to-head dict, match list and player statistics) is returned unchanged,
since both membership checks and the tracker's winner check run before any
mutation. -/
theorem c10_record_error_atomic (c : StandingsCalculator) (mid pa pb : String)
    (w : Option String) : RecordErrorAtomicSpec c mid pa pb w := by
  intro h
  by_cases ha : dictHas c.players pa = true
  · by_cases hb : dictHas c.players pb = true
    · rcases h with h | h | ⟨x, hx, hxa, hxb⟩
      · rw [ha] at h; cases h
      · rw [hb] at h; cases h
      · have htr : c.match_tracker.record_match mid pa pb w "WIN"
            = Except.error "Winner not in match players" := by
          subst hx
          simp [MatchTracker.record_match, hxa, hxb]
        simp [StandingsCalculator.record_match_result, ha, hb, htr]
    · simp [StandingsCalculator.record_match_result, ha, hb]
  · simp [StandingsCalculator.record_match_result, ha]

/-- C10 witness: the atomicity property applied to an empty calculator and a
match between two players that were never added. -/
theorem c10_record_error_witness :
    (dictHas StandingsCalculator.init0.players "A" = false ∨
      dictHas StandingsCalculator.init0.players "B" = false ∨
      (∃ x, (some "A" : Option String) = some x ∧ x ≠ "A" ∧ x ≠ "B")) ∧
    (StandingsCalculator.init0.record_match_result "M1" "A" "B" (some "A")).1 ≠ none ∧
    (StandingsCalculator.init0.record_match_result "M1" "A" "B" (some "A")).2
      = StandingsCalculator.init0 :=
  ⟨Or.inl (by decide),
   c10_record_error_atomic StandingsCalculator.init0 "M1" "A" "B" (some "A")
     (Or.inl (by decide))⟩

/- ========================================================================
   Claim C7
   ======================================================================== -/

/-- The points invariant survives an in-place modification whose function
preserves it. -/
theorem pointsInv_dictModify {d : List (String × PlayerStanding)} {k : String}
    {f : PlayerStanding → PlayerStanding}
    (hd : ∀ pr ∈ d, pr.2.points = 3 * pr.2.wins + pr.2.ties)
    (hf : ∀ s : PlayerStanding, s.points = 3 * s.wins + s.ties →
      (f s).points = 3 * (f s).wins + (f s).ties) :
    ∀ pr ∈ dictModify d k f, pr.2.points = 3 * pr.2.wins + pr.2.ties := by
  intro pr hpr
  rcases mem_dictModify_cases hpr with h | ⟨q, hq, hqe⟩
  · exact hd pr h
  · subst hqe
    exact hf q.2 (hd q hq)

/-- A successful `record_match_result` preserves the points invariant: the
tie update adds one tie and one point, the win update adds one win and three
points, and the loss and matches-played updates leave points, wins and ties
unchanged. -/
theorem pointsInv_record {c c' : StandingsCalculator} {mid pa pb : String}
    {w : Option String} (hc : PointsInvariant c)
    (h : c.record_match_result mid pa pb w = (none, c')) : PointsInvariant c' := by
  unfold StandingsCalculator.record_match_result at h
  by_cases ha : dictHas c.players pa = true
  · by_cases hb : dictHas c.players pb = true
    · rw [if_neg (by simp [ha]), if_neg (by simp [hb])] at h
      cases htr : c.match_tracker.record_match mid pa pb w "WIN" with
      | error e => rw [htr] at h; simp at h
      | ok tr =>
        rw [htr] at h
        dsimp only at h
        cases w with
        | none =>
          dsimp only at h
          simp only [Prod.mk.injEq, true_and] at h
          subst h
          unfold PointsInvariant
          dsimp only
          refine fun pr hpr =>
            pointsInv_dictModify (pointsInv_dictModify (pointsInv_dictModify
              (pointsInv_dictModify hc ?_) ?_) ?_) ?_ pr hpr <;>
            intro s hs <;> dsimp only <;> omega
        | some x =>
          dsimp only at h
          by_cases hx : (x == pa) = true
          · rw [if_pos hx] at h
            simp only [Prod.mk.injEq, true_and] at h
            subst h
            unfold PointsInvariant
            dsimp only
            refine fun pr hpr =>
              pointsInv_dictModify (pointsInv_dictModify (pointsInv_dictModify
                (pointsInv_dictModify hc ?_) ?_) ?_) ?_ pr hpr <;>
              intro s hs <;> dsimp only <;> omega
          · rw [if_neg hx] at h
            simp only [Prod.mk.injEq, true_and] at h
            subst h
            unfold PointsInvariant
            dsimp only
            refine fun pr hpr =>
              pointsInv_dictModify (pointsInv_dictModify (pointsInv_dictModify
                (pointsInv_dictModify hc ?_) ?_) ?_) ?_ pr hpr <;>
              intro s hs <;> dsimp only <;> omega
    · rw [if_neg (by simp [ha]), if_pos (by simp [hb])] at h
      simp at h
  · rw [if_pos (by simp [ha])] at h
    simp at h

/-- A successful `record_match_result` between two distinct players
increments `matches_played` by exactly one for each of them: the first two
updates bump the counter once per player and the outcome updates leave it
unchanged. -/
theorem record_increments {c c' : StandingsCalculator} {mid pa pb : String}
    {w : Option String} (hne : pa ≠ pb)
    (h : c.record_match_result mid pa pb w = (none, c')) :
    MatchesPlayedIncrement c c' pa pb := by
  unfold StandingsCalculator.record_match_result at h
  by_cases ha : dictHas c.players pa = true
  · by_cases hb : dictHas c.players pb = true
    · rw [if_neg (by simp [ha]), if_neg (by simp [hb])] at h
      obtain ⟨sa, hsa⟩ := Option.isSome_iff_exists.1 (dictGet?_isSome_of_dictHas ha)
      obtain ⟨sb, hsb⟩ := Option.isSome_iff_exists.1 (dictGet?_isSome_of_dictHas hb)
      cases htr : c.match_tracker.record_match mid pa pb w "WIN" with
      | error e => rw [htr] at h; simp at h
      | ok tr =>
        rw [htr] at h
        dsimp only at h
        cases w with
        | none =>
          dsimp only at h
          simp only [Prod.mk.injEq, true_and] at h
          subst h
          refine ⟨sa, sb,
            ({ sa with ties := sa.ties + 1, points := sa.points + 1, matches_played := sa.matches_played + 1 }),
            ({ sb with ties := sb.ties + 1, points := sb.points + 1, matches_played := sb.matches_played + 1 }),
            hsa, hsb, ?_, ?_, rfl, rfl⟩
          · dsimp only
            rw [dictGet?_dictModify_other _ hne, dictGet?_dictModify_self,
              dictGet?_dictModify_other _ hne, dictGet?_dictModify_self, hsa]
            rfl
          · dsimp only
            rw [dictGet?_dictModify_self, dictGet?_dictModify_other _ (Ne.symm hne),
              dictGet?_dictModify_self, dictGet?_dictModify_other _ (Ne.symm hne), hsb]
            rfl
        | some x =>
          dsimp only at h
          by_cases hx : (x == pa) = true
          · rw [if_pos hx] at h
            simp only [Prod.mk.injEq, true_and] at h
            subst h
            refine ⟨sa, sb,
              ({ sa with wins := sa.wins + 1, points := sa.points + 3, matches_played := sa.matches_played + 1 }),
              ({ sb with losses := sb.losses + 1, matches_played := sb.matches_played + 1 }),
              hsa, hsb, ?_, ?_, rfl, rfl⟩
            · dsimp only
              rw [dictGet?_dictModify_other _ hne, dictGet?_dictModify_self,
                dictGet?_dictModify_other _ hne, dictGet?_dictModify_self, hsa]
              rfl
            · dsimp only
              rw [dictGet?_dictModify_self, dictGet?_dictModify_other _ (Ne.symm hne),
                dictGet?_dictModify_self, dictGet?_dictModify_other _ (Ne.symm hne), hsb]
              rfl
          · rw [if_neg hx] at h
            simp only [Prod.mk.injEq, true_and] at h
            subst h
            refine ⟨sa, sb,
              ({ sa with losses := sa.losses + 1, matches_played := sa.matches_played + 1 }),
              ({ sb with wins := sb.wins + 1, points := sb.points + 3, matches_played := sb.matches_played + 1 }),
              hsa, hsb, ?_, ?_, rfl, rfl⟩
            · dsimp only
              rw [dictGet?_dictModify_self, dictGet?_dictModify_other _ hne,
                dictGet?_dictModify_other _ hne, dictGet?_dictModify_self, hsa]
              rfl
            · dsimp only
              rw [dictGet?_dictModify_other _ (Ne.symm hne), dictGet?_dictModify_self,
                dictGet?_dictModify_self, dictGet?_dictModify_other _ (Ne.symm hne), hsb]
              rfl
    · rw [if_neg (by simp [ha]), if_pos (by simp [hb])] at h
      simp at h
  · rw [if_pos (by simp [ha])] at h
    simp at h

/-- C7: after every sequence of `add_player` and successful
`record_match_result` calls, every stored standing satisfies
`points = 3*wins + 1*ties`, and each successful call between two distinct
players increments `matches_played` by exactly one for both of them. -/
theorem c7_standings_invariants :
    (∀ c, CalcReach c → PointsInvariant c) ∧
    (∀ (c c' : StandingsCalculator) (mid pa pb : String) (w : Option String),
      pa ≠ pb → c.record_match_result mid pa pb w = (none, c') →
      MatchesPlayedIncrement c c' pa pb) := by
  constructor
  · intro c h
    induction h with
    | init => intro pr hpr; cases hpr
    | add pid dname _ ih =>
      intro pr hpr
      rcases mem_dictSet_cases hpr with he | hm
      · subst he
        simp [PlayerStanding.new]
      · exact ih pr hm
    | record _ hrec ih => exact pointsInv_record ih hrec
  · intro c c' mid pa pb w hne h
    exact record_increments hne h

/-- C7 witness: both parts applied to a two-player calculator recording one
decisive match. -/
theorem c7_witness :
    PointsInvariant
      ((((StandingsCalculator.init0.add_player "A" "a").add_player "B" "b"
        ).record_match_result "M1" "A" "B" (some "A")).2) ∧
    MatchesPlayedIncrement
      ((StandingsCalculator.init0.add_player "A" "a").add_player "B" "b")
      ((((StandingsCalculator.init0.add_player "A" "a").add_player "B" "b"
        ).record_match_result "M1" "A" "B" (some "A")).2)
      "A" "B" :=
  ⟨c7_standings_invariants.1 _
    (@CalcReach.record
      ((StandingsCalculator.init0.add_player "A" "a").add_player "B" "b")
      ((((StandingsCalculator.init0.add_player "A" "a").add_player "B" "b"
        ).record_match_result "M1" "A" "B" (some "A")).2)
      "M1" "A" "B" (some "A")
      (CalcReach.add "B" "b" (CalcReach.add "A" "a" CalcReach.init))
      (by decide)),
   c7_standings_invariants.2
     ((StandingsCalculator.init0.add_player "A" "a").add_player "B" "b")
     ((((StandingsCalculator.init0.add_player "A" "a").add_player "B" "b"
       ).record_match_result "M1" "A" "B" (some "A")).2)
     "M1" "A" "B" (some "A") (by decide) (by decide)⟩

/- ========================================================================
   Claim C6
   ======================================================================== -/

/-- Code-point comparison of char lists is transitive. -/
theorem strLtB_trans : ∀ a b c : List Char,
    strLtB a b = true → strLtB b c = true → strLtB a c = true := by
  intro a
  induction a with
  | nil =>
    intro b c hab hbc
    cases b with
    | nil => simp [strLtB] at hab
    | cons y ys =>
      cases c with
      | nil => simp [strLtB] at hbc
      | cons z zs => simp [strLtB]
  | cons x xs ih =>
    intro b c hab hbc
    cases b with
    | nil => simp [strLtB] at hab
    | cons y ys =>
      cases c with
      | nil => simp [strLtB] at hbc
      | cons z zs =>
        simp only [strLtB] at hab hbc ⊢
        split_ifs at hab hbc ⊢ <;>
          first
          | rfl
          | (exact ih ys zs hab hbc)
          | (exfalso; omega)

/-- Two char lists neither of which precedes the other are equal. -/
theorem strLtB_eq_of_not : ∀ a b : List Char,
    strLtB a b = false → strLtB b a = false → a = b := by
  intro a
  induction a with
  | nil =>
    intro b h1 _
    cases b with
    | nil => rfl
    | cons y ys => simp [strLtB] at h1
  | cons x xs ih =>
    intro b h1 h2
    cases b with
    | nil => simp [strLtB] at h2
    | cons y ys =>
      simp only [strLtB] at h1 h2
      by_cases hxy : x.toNat < y.toNat
      · rw [if_pos hxy] at h1
        simp at h1
      · by_cases hyx : y.toNat < x.toNat
        · rw [if_pos hyx] at h2
          simp at h2
        · rw [if_neg hxy, if_neg hyx] at h1
          rw [if_neg hyx, if_neg hxy] at h2
          have hnat : x.toNat = y.toNat := by omega
          have hch : x = y := Char.ext (UInt32.ext (by simpa [Char.toNat] using hnat))
          subst hch
          rw [ih ys h1 h2]

/-- Logical reading of the tuple-key comparison. -/
theorem keyLe_iff (a b : Int × Nat × List Char) : keyLe a b = true ↔
    (a.1 < b.1 ∨ (a.1 = b.1 ∧ (a.2.1 < b.2.1 ∨ (a.2.1 = b.2.1 ∧
      (strLtB a.2.2 b.2.2 = true ∨
        (strLtB a.2.2 b.2.2 = false ∧ strLtB b.2.2 a.2.2 = false)))))) := by
  unfold keyLe
  split_ifs <;> simp_all <;> omega

/-- The tuple-key comparison is transitive. -/
theorem keyLe_trans (a b c : Int × Nat × List Char)
    (hab : keyLe a b = true) (hbc : keyLe b c = true) : keyLe a c = true := by
  rw [keyLe_iff] at hab hbc ⊢
  rcases hab with hab | ⟨e1, hab⟩
  · rcases hbc with hbc | ⟨e2, _⟩
    · exact Or.inl (lt_trans hab hbc)
    · exact Or.inl (by omega)
  · rcases hbc with hbc | ⟨e2, hbc⟩
    · exact Or.inl (by omega)
    · refine Or.inr ⟨by omega, ?_⟩
      rcases hab with hab | ⟨f1, hab⟩
      · rcases hbc with hbc | ⟨f2, _⟩
        · exact Or.inl (lt_trans hab hbc)
        · exact Or.inl (by omega)
      · rcases hbc with hbc | ⟨f2, hbc⟩
        · exact Or.inl (by omega)
        · refine Or.inr ⟨by omega, ?_⟩
          rcases hab with hab | ⟨g1, g2⟩
          · rcases hbc with hbc | ⟨h1, _⟩
            · exact Or.inl (strLtB_trans _ _ _ hab hbc)
            · rw [strLtB_eq_of_not _ _ h1 (by assumption)] at hab
              exact Or.inl hab
          · rcases hbc with hbc | ⟨h1, h2⟩
            · rw [← strLtB_eq_of_not _ _ g1 g2] at hbc
              exact Or.inl hbc
            · rw [← strLtB_eq_of_not _ _ g1 g2] at h1 h2
              exact Or.inr ⟨h1, h2⟩

/-- The tuple-key comparison is total. -/
theorem keyLe_total (a b : Int × Nat × List Char) :
    (keyLe a b || keyLe b a) = true := by
  rw [Bool.or_eq_true, keyLe_iff, keyLe_iff]
  rcases lt_trichotomy a.1 b.1 with h1 | h1 | h1
  · exact Or.inl (Or.inl h1)
  · rcases Nat.lt_trichotomy a.2.1 b.2.1 with h2 | h2 | h2
    · exact Or.inl (Or.inr ⟨h1, Or.inl h2⟩)
    · by_cases h3 : strLtB a.2.2 b.2.2 = true
      · exact Or.inl (Or.inr ⟨h1, Or.inr ⟨h2, Or.inl h3⟩⟩)
      · by_cases h4 : strLtB b.2.2 a.2.2 = true
        · exact Or.inr (Or.inr ⟨h1.symm, Or.inr ⟨h2.symm, Or.inl h4⟩⟩)
        · exact Or.inl (Or.inr ⟨h1, Or.inr ⟨h2, Or.inr
            ⟨Bool.eq_false_iff.2 h3, Bool.eq_false_iff.2 h4⟩⟩⟩)
    · exact Or.inr (Or.inr ⟨h1.symm, Or.inl h2⟩)
  · exact Or.inr (Or.inl h1)

/-- Searching equals taking the head of the filtered list. -/
theorem find?_eq_head?_filter {α : Type} (p : α → Bool) (l : List α) :
    l.find? p = (l.filter p).head? := by
  induction l with
  | nil => rfl
  | cons a tl ih =>
    by_cases h : p a = true
    · rw [List.find?_cons_of_pos _ h, List.filter_cons_of_pos h]
      rfl
    · rw [List.find?_cons_of_neg _ (by simp [h]), List.filter_cons_of_neg (by simp [h]), ih]

/-- The code's `_get_tiebreaker_value` computes exactly the claim's tiebreak
value. -/
theorem tiebreak_code_eq_spec (c : StandingsCalculator) (p : PlayerStanding)
    (all_players : List PlayerStanding) :
    c.getTiebreakerValue p all_players = tiebreakSpec c p all_players := by
  unfold StandingsCalculator.getTiebreakerValue tiebreakSpec
  have hpred : ∀ q ∈ all_players,
      (decide (q.points = p.points ∧ q.player_id ≠ p.player_id))
        = (q.points == p.points && q.player_id != p.player_id) := by
    intro q _
    by_cases h1 : q.points = p.points <;> by_cases h2 : q.player_id = p.player_id <;>
      simp [h1, h2]
  rw [List.countP_eq_length_filter, List.filter_congr hpred, find?_eq_head?_filter]
  dsimp only
  cases hF : all_players.filter
      (fun q => q.points == p.points && q.player_id != p.player_id) with
  | nil => simp
  | cons q tl =>
    cases tl with
    | nil =>
      simp only [List.length_cons, List.length_nil, List.head?_cons, if_pos rfl]
      cases hh : c.match_tracker.get_head_to_head p.player_id q.player_id with
      | none => rfl
      | some h =>
        by_cases h1 : h = "W"
        · subst h1; rfl
        · by_cases h2 : h = "L"
          · subst h2; rfl
          · have e1 : (h == "W") = false := by simp [h1]
            have e2 : (h == "L") = false := by simp [h2]
            simp only [e1, e2, Bool.false_eq_true, if_false]
            split <;> simp_all
    | cons q2 tl2 => simp

/-- Rank reassignment does not change the multiset of standings up to
`clearRank`. -/
theorem assignRanks_map_clearRank : ∀ (i : Nat) (l : List PlayerStanding),
    (assignRanks i l).map clearRank = l.map clearRank := by
  intro i l
  induction l generalizing i with
  | nil => rfl
  | cons p ps ih => simp [assignRanks, clearRank, ih]

/-- Every element of the rank-reassigned list is an element of the original
list with its rank overwritten. -/
theorem mem_assignRanks {q' : PlayerStanding} :
    ∀ (i : Nat) (l : List PlayerStanding), q' ∈ assignRanks i l →
    ∃ q ∈ l, ∃ j : Nat, q' = { q with rank := j } := by
  intro i l
  induction l generalizing i with
  | nil => intro h; cases h
  | cons p ps ih =>
    intro h
    rcases List.mem_cons.1 h with h | h
    · exact ⟨p, List.mem_cons_self _ _, i + 1, h⟩
    · obtain ⟨q, hq, j, hj⟩ := ih (i + 1) h
      exact ⟨q, List.mem_cons_of_mem _ hq, j, hj⟩

/-- Ranks assigned by the reassignment loop are the positional indices offset
by the running counter. -/
theorem assignRanks_get_rank : ∀ (l : List PlayerStanding) (i j : Nat)
    (h : j < (assignRanks i l).length),
    ((assignRanks i l).get ⟨j, h⟩).rank = i + j + 1 := by
  intro l
  induction l with
  | nil => intro i j h; simp [assignRanks] at h
  | cons p ps ih =>
    intro i j h
    cases j with
    | zero => rfl
    | succ j =>
      have := ih (i + 1) j (by simpa [assignRanks] using h)
      simpa [assignRanks, Nat.add_assoc, Nat.add_comm, Nat.add_left_comm] using this

/-- Pairwise relations invariant under rank overwriting survive the rank
reassignment loop. -/
theorem pairwise_assignRanks {R : PlayerStanding → PlayerStanding → Prop}
    (hR : ∀ (p q : PlayerStanding) (i j : Nat), R p q →
      R { p with rank := i } { q with rank := j }) :
    ∀ (i : Nat) (l : List PlayerStanding), l.Pairwise R →
    (assignRanks i l).Pairwise R := by
  intro i l
  induction l generalizing i with
  | nil => intro; exact List.Pairwise.nil
  | cons p ps ih =>
    intro h
    obtain ⟨hhead, htail⟩ := List.pairwise_cons.1 h
    refine List.pairwise_cons.2 ⟨?_, ih (i + 1) htail⟩
    intro q' hq'
    obtain ⟨q, hq, j, hj⟩ := mem_assignRanks (i + 1) ps hq'
    subst hj
    exact hR p q (i + 1) j (hhead q hq)

/-- The spec sort key ignores the mutable rank field. -/
theorem specKey_rank_irrel (c : StandingsCalculator) (p : PlayerStanding) (i : Nat) :
    specKey c { p with rank := i } = specKey c p := rfl

/-- Lookup in the precomputed tiebreaker dict, given that the listed player
ids are distinct. -/
theorem tbv_lookup (f : PlayerStanding → Nat) (p : PlayerStanding) :
    ∀ l : List PlayerStanding, (l.map (fun q => q.player_id)).Nodup → p ∈ l →
    dictGet? (l.map (fun q => (q.player_id, f q))) p.player_id = some (f p) := by
  intro l
  induction l with
  | nil => intro _ hp; cases hp
  | cons q rest ih =>
    intro hnd hp
    simp only [List.map_cons, List.nodup_cons] at hnd
    obtain ⟨hq, hnd'⟩ := hnd
    rw [List.map_cons, dictGet?_cons]
    rcases List.mem_cons.1 hp with he | hp'
    · subst he
      rw [if_pos (by simp)]
    · have hne : (q.player_id == p.player_id) = false := by
        simp only [beq_eq_false_iff_ne]
        intro hc
        exact hq (hc ▸ List.mem_map_of_mem _ hp')
      rw [if_neg (by simp [hne])]
      exact ih hnd' hp'

/-- C6: `get_standings` returns the stored standings sorted ascending by
`(-points, tiebreak_value, player_id)` with `rank = index + 1`, and the
code's tiebreak value matches the claim's description (0 by default, and on
a two-way point tie 0 for the head-to-head winner, 1 for the loser, 0 when
unplayed or tied; never applied to three-way or larger ties, which fall back
to the player-id order). -/
theorem c6_standings_sorted (c : StandingsCalculator)
    (hnd : ((c.players.map Prod.snd).map (fun p => p.player_id)).Nodup) :
    StandingsSpec c := by
  have hkeys : ∀ p ∈ c.players.map Prod.snd,
      sortKeyOf (tiebreaker_values c) p = specKey c p := by
    intro p hp
    unfold sortKeyOf specKey tiebreaker_values
    rw [tbv_lookup _ p _ hnd hp]
    simp [tiebreak_code_eq_spec]
  refine ⟨?_, ?_, ?_, fun p all => tiebreak_code_eq_spec c p all⟩
  · unfold StandingsCalculator.get_standings
    rw [assignRanks_map_clearRank]
    exact List.Perm.map clearRank (List.mergeSort_perm _ _)
  · intro i h
    unfold StandingsCalculator.get_standings at h ⊢
    have := assignRanks_get_rank _ 0 i h
    simpa using this
  · unfold StandingsCalculator.get_standings
    have htrans : ∀ a b d : PlayerStanding, sortLe c a b = true →
        sortLe c b d = true → sortLe c a d = true := by
      intro a b d h1 h2
      unfold sortLe at h1 h2 ⊢
      exact keyLe_trans _ _ _ h1 h2
    have htotal : ∀ a b : PlayerStanding, (sortLe c a b || sortLe c b a) = true := by
      intro a b
      unfold sortLe
      exact keyLe_total _ _
    have hs := List.sorted_mergeSort htrans htotal (c.players.map Prod.snd)
    refine pairwise_assignRanks ?_ 0 _ ?_
    · intro p q i j h
      rwa [specKey_rank_irrel, specKey_rank_irrel]
    · refine List.Pairwise.imp_of_mem ?_ hs
      intro a b ha hb hab
      have ha' := (List.mergeSort_perm (c.players.map Prod.snd) (sortLe c)).subset ha
      have hb' := (List.mergeSort_perm (c.players.map Prod.snd) (sortLe c)).subset hb
      unfold sortLe at hab
      rwa [hkeys a ha', hkeys b hb'] at hab

/-- C6 witness: the sortedness property applied to a three-player calculator
in which P2 beat P1 (two-way tie on points broken by head-to-head) and P3
trails. -/
theorem c6_standings_witness :
    ((((((StandingsCalculator.init0.add_player "P1" "a").add_player "P2" "b"
      ).add_player "P3" "cc").record_match_result "M1" "P2" "P1" (some "P2")).2.players.map
        Prod.snd).map (fun p => p.player_id)).Nodup ∧
    StandingsSpec
      (((((StandingsCalculator.init0.add_player "P1" "a").add_player "P2" "b"
        ).add_player "P3" "cc").record_match_result "M1" "P2" "P1" (some "P2")).2) :=
  ⟨by decide, c6_standings_sorted _ (by decide)⟩

end AgentsGame
